import Mathlib

/-!
Verification of the BrainDesk task/settings state management against its
specification.  The definitions below are shallow embeddings of the Redux
reducers in src/features/todo/todoSlice.ts, the settings slice
(settingsSlice.ts) and the import flow (ImportButton.tsx).  JavaScript
dynamic values are modelled with explicit sum types: a possibly-invalid
task object from a parsed backup is a RawTask, a partially present
settings object is a PartialSettings whose absent fields are none.
-/

namespace BrainDesk

/-- A to-do task, mirroring the Task type of todoSlice.ts.  The optional
completedAt and deletedAt fields use Option, with none standing for the
JavaScript null. -/
structure Task where
  id : String
  text : String
  completed : Bool
  subject : String
  priority : String
  createdAt : String
  completedAt : Option String
  deletedAt : Option String
deriving DecidableEq, Repr

/-- An element of a dynamically-typed task array, as handled by the
validity filters of mergeTasks and handleImport: either an object that
fails the required-string-field check (null, or some required field not a
string), or a well-formed task. -/
inductive RawTask where
  | junk
  | ok (t : Task)
deriving DecidableEq, Repr

/-- The required-string-field filter of mergeTasks and handleImport, as a
partial projection: junk entries are dropped, well-formed ones kept. -/
def RawTask.toTask : RawTask → Option Task
  | .junk => none
  | .ok t => some t

/-- Theme selection options of settingsSlice.ts. -/
inductive ThemeMode where
  | light
  | dark
  | system
deriving DecidableEq, Repr

/-- Redux state structure for settings (settingsSlice.ts). -/
structure SettingsState where
  themeMode : ThemeMode
  subjects : List String
  notificationTime : Option String
deriving DecidableEq, Repr

/-- The hardcoded default settings of settingsSlice.ts. -/
def defaultState : SettingsState :=
  { themeMode := .system
    subjects := ["Physics", "Chemistry", "Math"]
    notificationTime := none }

/-- A partial settings object, as carried by the loadSettings and
mergeSettings payloads and by a parsed settings record.  themeMode is
some m when the field is a present theme string, none when absent.
subjects is some l exactly when the field passes the isArray check.
notificationTime distinguishes an absent (or non-string non-null) field
(none), an explicit null (some none), and a string (some (some s)). -/
structure PartialSettings where
  themeMode : Option ThemeMode
  subjects : Option (List String)
  notificationTime : Option (Option String)
deriving DecidableEq, Repr

/-! ### Task store reducers (todoSlice.ts) -/

/-- addTask: appends a freshly built task.  The generated uuid and the
creation timestamp are nondeterministic in the code, so they are taken as
parameters here. -/
def addTask (tasks : List Task) (newId txt subj prio createdAt : String) :
    List Task :=
  tasks ++ [{ id := newId
              text := txt
              subject := subj
              priority := prio
              completed := false
              createdAt := createdAt
              completedAt := none
              deletedAt := none }]

/-- The editTask action payload. -/
structure EditPayload where
  id : String
  text : String
  priority : String
  subject : String
deriving DecidableEq, Repr

/-- editTask: Array.prototype.find locates the first task whose id
matches, and its text, priority and subject are overwritten in place;
with no match the state is untouched. -/
def editTask (p : EditPayload) : List Task → List Task
  | [] => []
  | t :: ts =>
      if t.id = p.id then
        { t with text := p.text, priority := p.priority, subject := p.subject } :: ts
      else
        t :: editTask p ts

/-- toggleTask: the first task whose id matches has its completed flag
flipped and completedAt stamped with the current time (cleared when the
flip lands on incomplete).  The wall-clock time is a parameter. -/
def toggleTask (taskId now : String) : List Task → List Task
  | [] => []
  | t :: ts =>
      if t.id = taskId then
        { t with completed := !t.completed
                 completedAt := if !t.completed then some now else none } :: ts
      else
        t :: toggleTask taskId now ts

/-- deleteTask: keeps exactly the tasks whose id differs from the
payload. -/
def deleteTask (taskId : String) (tasks : List Task) : List Task :=
  tasks.filter (fun t => t.id ≠ taskId)

/-- mergeTasks: the payload is filtered down to entries passing the
required-string-field check, entries whose id already occurs in the state
are dropped, and the survivors are appended. -/
def mergeTasks (tasks : List Task) (payload : List RawTask) : List Task :=
  let incomingTasks := payload.filterMap RawTask.toTask
  let existingIds := tasks.map Task.id
  let newTasks := incomingTasks.filter (fun t => !(existingIds.contains t.id))
  tasks ++ newTasks

/-- clearTasks: empties the collection. -/
def clearTasks (_ : List Task) : List Task := []

/-! ### Settings reducers (settingsSlice.ts) -/

/-- setThemeMode: overwrites the theme. -/
def setThemeMode (st : SettingsState) (m : ThemeMode) : SettingsState :=
  { st with themeMode := m }

/-- addSubject: pushes the subject unless already present. -/
def addSubject (st : SettingsState) (s : String) : SettingsState :=
  if st.subjects.contains s then st
  else { st with subjects := st.subjects ++ [s] }

/-- deleteSubject: filters the subjects list by inequality with the
payload. -/
def deleteSubject (st : SettingsState) (s : String) : SettingsState :=
  { st with subjects := st.subjects.filter (fun x => x ≠ s) }

/-- setNotificationTime: overwrites the notification time (none disables
it). -/
def setNotificationTime (st : SettingsState) (t : Option String) :
    SettingsState :=
  { st with notificationTime := t }

/-- loadSettings: bulk replacement of exactly the provided fields.  A
provided subjects array replaces the list as-is, with no deduplication. -/
def loadSettings (st : SettingsState) (p : PartialSettings) : SettingsState :=
  let st1 := match p.themeMode with
    | some m => { st with themeMode := m }
    | none => st
  let st2 := match p.subjects with
    | some l => { st1 with subjects := l }
    | none => st1
  match p.notificationTime with
  | some t => { st2 with notificationTime := t }
  | none => st2

/-- One step of building a JavaScript Set from an array: an element is
appended only when not seen before, so first occurrences survive in
order. -/
def insertUnique (acc : List String) (x : String) : List String :=
  if acc.contains x then acc else acc ++ [x]

/-- Array.from applied to a Set built from a list: deduplication keeping
the first occurrence of each element, in insertion order. -/
def jsSetUnion (xs : List String) : List String :=
  xs.foldl insertUnique []

/-- mergeSettings: a truthy incoming theme overwrites, a provided
subjects array is unioned with the current one through a Set, and a
string-or-null incoming notification time overwrites. -/
def mergeSettings (st : SettingsState) (p : PartialSettings) : SettingsState :=
  let st1 := match p.themeMode with
    | some m => { st with themeMode := m }
    | none => st
  let st2 := match p.subjects with
    | some l => { st1 with subjects := jsSetUnion (st1.subjects ++ l) }
    | none => st1
  match p.notificationTime with
  | some t => { st2 with notificationTime := t }
  | none => st2

/-- clearSettings: resets every field to its hardcoded default. -/
def clearSettings (_ : SettingsState) : SettingsState :=
  { themeMode := .system
    subjects := ["Physics", "Chemistry", "Math"]
    notificationTime := none }

/-! ### Settings persistence (settingsSlice.ts, loadSettingsFromStorage) -/

/-- What AsyncStorage holds at the settings key when
loadSettingsFromStorage reads it: no record, a record that JSON.parse
rejects, or a record parsed into an object whose relevant fields are
described by a PartialSettings. -/
inductive StoredSettings where
  | missing
  | invalidJson
  | validJson (parsed : PartialSettings)
deriving DecidableEq, Repr

/-- The field-by-field extraction loadSettingsFromStorage performs on the
parsed object: themeMode and subjects fall back to the defaults when
absent or not an array, and notificationTime is taken only when it is a
string. -/
def extractSettings (parsed : PartialSettings) : SettingsState :=
  { themeMode := parsed.themeMode.getD defaultState.themeMode
    subjects := parsed.subjects.getD defaultState.subjects
    notificationTime :=
      match parsed.notificationTime with
      | some (some s) => some s
      | _ => defaultState.notificationTime }

/-- loadSettingsFromStorage: a missing record is read as the empty
object, a record JSON.parse throws on is caught and answered with the
defaults, and a parsed record goes through the field-wise extraction.
The try/catch makes the function total: it never throws. -/
def loadSettingsFromStorage : StoredSettings → SettingsState
  | .missing => extractSettings { themeMode := none, subjects := none, notificationTime := none }
  | .invalidJson => defaultState
  | .validJson parsed => extractSettings parsed

/-! ### Import flow (ImportButton.tsx, handleImport) -/

/-- The content of a picked backup file after JSON.parse: either the
parse threw (malformed, carrying the thrown message), or it produced a
value whose top-level tasks field is an array of raw entries (none when
not an array) and whose settings field is an object described by a
PartialSettings (none when not an object, or null). -/
inductive BackupContent where
  | malformed (errMsg : String)
  | parsed (tasks : Option (List RawTask)) (settings : Option PartialSettings)
deriving DecidableEq, Repr

/-- The user-visible outcome of an import: the error modal with its
message, the Nothing to Import warning, or the success modal reporting
how many tasks were merged. -/
inductive ImportResult where
  | errorAlert (message : String)
  | nothingToImport
  | successAlert (newCount : Nat)
deriving DecidableEq, Repr

/-- The slices of Redux state the import flow touches. -/
structure AppState where
  tasks : List Task
  settings : SettingsState
deriving DecidableEq, Repr

/-- handleImport: validates the parsed backup (tasks must be an array,
settings an object, both checked in that order, a failure throwing into
the catch branch that shows the error modal), filters the valid task
objects, drops those whose id already exists, returns early with a
warning when nothing is left, and otherwise dispatches mergeTasks with
the valid tasks and mergeSettings with the backup settings. -/
def handleImport (st : AppState) (file : BackupContent) :
    ImportResult × AppState :=
  match file with
  | .malformed msg => (.errorAlert msg, st)
  | .parsed none _ =>
      (.errorAlert "Invalid format: tasks array missing.", st)
  | .parsed (some _) none =>
      (.errorAlert "Invalid format: settings object missing.", st)
  | .parsed (some rawTasks) (some rawSettings) =>
      if ((rawTasks.filterMap RawTask.toTask).filter
          (fun t => !((st.tasks.map Task.id).contains t.id))).length = 0 then
        (.nothingToImport, st)
      else
        (.successAlert ((rawTasks.filterMap RawTask.toTask).filter
            (fun t => !((st.tasks.map Task.id).contains t.id))).length,
         { tasks := mergeTasks st.tasks
             ((rawTasks.filterMap RawTask.toTask).map RawTask.ok)
           settings := mergeSettings st.settings rawSettings })

/-! ### Helper lemmas -/

theorem RawTask.toTask_eq_some {r : RawTask} {t : Task} :
    r.toTask = some t ↔ r = .ok t := by
  cases r <;> simp [RawTask.toTask]

theorem mem_insertUnique {acc : List String} {y x : String} :
    x ∈ insertUnique acc y ↔ x ∈ acc ∨ x = y := by
  unfold insertUnique
  split
  next h =>
    have hy : y ∈ acc := List.elem_iff.mp h
    constructor
    · exact .inl
    · rintro (hx | rfl)
      · exact hx
      · exact hy
  next h => simp [List.mem_append]

theorem nodup_insertUnique {acc : List String} (y : String) (h : acc.Nodup) :
    (insertUnique acc y).Nodup := by
  unfold insertUnique
  split
  · exact h
  next hc =>
    have hy : y ∉ acc := fun hm => hc (List.elem_iff.mpr hm)
    simp [List.nodup_append, h, hy]

theorem mem_foldl_insertUnique (xs : List String) :
    ∀ acc x, x ∈ xs.foldl insertUnique acc ↔ x ∈ acc ∨ x ∈ xs := by
  induction xs with
  | nil => simp
  | cons y ys ih =>
    intro acc x
    rw [List.foldl_cons, ih]
    simp [mem_insertUnique, or_assoc]

theorem nodup_foldl_insertUnique (xs : List String) :
    ∀ acc, acc.Nodup → (xs.foldl insertUnique acc).Nodup := by
  induction xs with
  | nil => intro acc h; exact h
  | cons y ys ih => intro acc h; exact ih _ (nodup_insertUnique y h)

theorem mem_jsSetUnion {xs : List String} {x : String} :
    x ∈ jsSetUnion xs ↔ x ∈ xs := by
  unfold jsSetUnion
  rw [mem_foldl_insertUnique]
  simp

theorem nodup_jsSetUnion (xs : List String) : (jsSetUnion xs).Nodup :=
  nodup_foldl_insertUnique xs [] List.nodup_nil

theorem mem_mergeTasks {tasks : List Task} {payload : List RawTask} {t : Task} :
    t ∈ mergeTasks tasks payload ↔
      t ∈ tasks ∨ (RawTask.ok t ∈ payload ∧ t.id ∉ tasks.map Task.id) := by
  unfold mergeTasks
  simp only [List.mem_append, List.mem_filter, List.mem_filterMap,
    RawTask.toTask_eq_some]
  constructor
  · rintro (ht | ⟨⟨r, hr, rfl⟩, hid⟩)
    · exact .inl ht
    · refine .inr ⟨hr, ?_⟩
      simpa using hid
  · rintro (ht | ⟨hr, hid⟩)
    · exact .inl ht
    · refine .inr ⟨⟨.ok t, hr, rfl⟩, ?_⟩
      simpa using hid

/-! ### Claim theorems -/

/-- C1: mergeTasks is a set-union by identifier, which means the current
tasks survive unchanged as the prefix of the result, and a task belongs
to the result exactly when it was already present or it arrived as a
well-formed incoming entry whose identifier is not carried by any current
task; incoming entries failing the required-string-field check or
carrying an existing identifier contribute nothing. -/
theorem mergeTasks_is_set_union_by_id (tasks : List Task)
    (payload : List RawTask) :
    (mergeTasks tasks payload).take tasks.length = tasks ∧
    (∀ t : Task, t ∈ mergeTasks tasks payload ↔
      t ∈ tasks ∨ (RawTask.ok t ∈ payload ∧ t.id ∉ tasks.map Task.id)) :=
  ⟨List.take_left tasks _, fun _ => mem_mergeTasks⟩

/-- C3: loadSettingsFromStorage is total (the try/catch never lets an
exception escape) and both degenerate cases, a missing record and a
record that is not valid JSON, are answered with the hardcoded defaults:
system theme, the three default subjects, no notification time. -/
theorem loadSettingsFromStorage_degenerate_defaults :
    loadSettingsFromStorage .missing = defaultState ∧
    loadSettingsFromStorage .invalidJson = defaultState ∧
    defaultState =
      { themeMode := .system
        subjects := ["Physics", "Chemistry", "Math"]
        notificationTime := none } :=
  ⟨rfl, rfl, rfl⟩

/-- C5: mergeSettings overwrites the theme exactly when one is provided,
replaces the subjects with the duplicate-free union of current and
incoming lists when an incoming array is provided, and overwrites the
notification time when a string-or-null one is provided; concretely,
merging subjects Physics, Chemistry with incoming Physics, Biology
yields exactly Physics, Chemistry, Biology. -/
theorem mergeSettings_spec (st : SettingsState) (p : PartialSettings) :
    (mergeSettings st p).themeMode = p.themeMode.getD st.themeMode ∧
    (∀ l, p.subjects = some l →
        ((mergeSettings st p).subjects.Nodup ∧
         ∀ x, x ∈ (mergeSettings st p).subjects ↔
           x ∈ st.subjects ∨ x ∈ l)) ∧
    (∀ t, p.notificationTime = some t →
        (mergeSettings st p).notificationTime = t) ∧
    (mergeSettings
        { themeMode := .system, subjects := ["Physics", "Chemistry"],
          notificationTime := none }
        { themeMode := none, subjects := some ["Physics", "Biology"],
          notificationTime := none }).subjects =
      ["Physics", "Chemistry", "Biology"] := by
  obtain ⟨tm, sj, nt⟩ := p
  refine ⟨?_, ?_, ?_, by decide⟩ <;>
    cases tm <;> cases sj <;> cases nt <;>
      simp [mergeSettings, nodup_jsSetUnion, mem_jsSetUnion, List.mem_append]

/-- C6 fails as stated: loadSettings installs a provided subjects array
as-is, so loading a payload whose array repeats an entry breaks
pairwise distinctness even from the default state, whose subjects are
pairwise distinct. -/
theorem loadSettings_can_break_subjects_nodup :
    defaultState.subjects.Nodup ∧
    ¬ (loadSettings defaultState
        { themeMode := none, subjects := some ["A", "A"],
          notificationTime := none }).subjects.Nodup := by decide

/-- C6 (amended): every settings operation preserves pairwise
distinctness of the subjects, except that loadSettings needs its
provided subjects array (when there is one) to be duplicate-free, since
it installs that array unchanged. -/
theorem settingsOps_preserve_subjects_nodup (st : SettingsState)
    (h : st.subjects.Nodup) :
    (∀ m, (setThemeMode st m).subjects.Nodup) ∧
    (∀ s, (addSubject st s).subjects.Nodup) ∧
    (∀ s, (deleteSubject st s).subjects.Nodup) ∧
    (∀ t, (setNotificationTime st t).subjects.Nodup) ∧
    (∀ p : PartialSettings, (∀ l, p.subjects = some l → l.Nodup) →
        (loadSettings st p).subjects.Nodup) ∧
    (∀ p : PartialSettings, (mergeSettings st p).subjects.Nodup) ∧
    (clearSettings st).subjects.Nodup := by
  refine ⟨fun m => h, ?_, ?_, fun t => h, ?_, ?_, ?_⟩
  · intro s
    unfold addSubject
    split
    · exact h
    next hc =>
      have hs : s ∉ st.subjects := fun hm => hc (List.elem_iff.mpr hm)
      simp [List.nodup_append, h, hs]
  · intro s
    exact h.sublist (List.filter_sublist st.subjects)
  · rintro ⟨tm, sj, nt⟩ hp
    cases sj with
    | none => cases tm <;> cases nt <;> simpa [loadSettings] using h
    | some l => cases tm <;> cases nt <;> simpa [loadSettings] using hp l rfl
  · rintro ⟨tm, sj, nt⟩
    cases sj with
    | none => cases tm <;> cases nt <;> simpa [mergeSettings] using h
    | some l => cases tm <;> cases nt <;> simp [mergeSettings, nodup_jsSetUnion]
  · show (["Physics", "Chemistry", "Math"] : List String).Nodup
    decide

/-- Witness for the amended C6 at the default state: adding a fresh
subject and loading a duplicate-free pair both keep distinctness. -/
theorem settingsOps_preserve_subjects_nodup_witness :
    (addSubject defaultState "Biology").subjects.Nodup ∧
    (loadSettings defaultState
        { themeMode := none, subjects := some ["A", "B"],
          notificationTime := none }).subjects.Nodup := by
  have h := settingsOps_preserve_subjects_nodup defaultState (by decide)
  exact ⟨h.2.1 "Biology",
    h.2.2.2.2.1 _ (fun l hl =>
      Option.some.inj hl ▸ (by decide : (["A", "B"] : List String).Nodup))⟩

/-- A settings state with a duplicated subject entry, reachable through
loadSettings. -/
def dupSubjects : SettingsState :=
  { themeMode := .system, subjects := ["A", "A"], notificationTime := none }

/-- C7 fails as stated: on a state holding the subject A twice, deleting
A removes both entries, not exactly one, since the reducer filters out
every match. -/
theorem deleteSubject_removes_all_matches :
    dupSubjects.subjects.length = 2 ∧
    (deleteSubject dupSubjects "A").subjects = [] ∧
    ¬ ((deleteSubject dupSubjects "A").subjects.length + 1 =
        dupSubjects.subjects.length) := by decide

/-- Filtering out one value shortens a list by exactly the number of its
occurrences. -/
theorem length_filter_ne_add_count (l : List String) (s : String) :
    (l.filter (fun y => y ≠ s)).length + l.count s = l.length := by
  induction l with
  | nil => simp
  | cons a l ih =>
    by_cases hc : a = s
    · subst hc
      simp only [List.filter_cons, List.count_cons, List.length_cons] at ih ⊢
      simp at ih ⊢
      omega
    · simp only [List.filter_cons, List.count_cons, List.length_cons] at ih ⊢
      simp [hc, Ne.symm hc] at ih ⊢
      omega

/-- C7 (amended): deleteSubject removes every entry equal to the label,
never touches a differing entry and keeps the survivors in their
original relative order; when the subjects are pairwise distinct and the
label is present, that means exactly one entry is removed. -/
theorem deleteSubject_spec (st : SettingsState) (s : String) :
    (deleteSubject st s).subjects.Sublist st.subjects ∧
    (∀ x, x ≠ s →
        (deleteSubject st s).subjects.count x = st.subjects.count x) ∧
    (deleteSubject st s).subjects.count s = 0 ∧
    (st.subjects.Nodup → s ∈ st.subjects →
        (deleteSubject st s).subjects.length + 1 = st.subjects.length) := by
  refine ⟨List.filter_sublist st.subjects, ?_, ?_, ?_⟩
  · intro x hx
    show (st.subjects.filter (fun y => y ≠ s)).count x = st.subjects.count x
    rw [List.count_filter]
    simp [hx]
  · exact List.count_eq_zero.mpr (by simp [deleteSubject])
  · intro hnod hmem
    have hlen := length_filter_ne_add_count st.subjects s
    have hone : st.subjects.count s = 1 :=
      le_antisymm (List.nodup_iff_count_le_one.mp hnod s)
        (List.one_le_count_iff.mpr hmem)
    show (st.subjects.filter (fun y => y ≠ s)).length + 1 = st.subjects.length
    omega

/-- A sample well-formed task. -/
def tA : Task :=
  { id := "a", text := "alpha", completed := false, subject := "Math",
    priority := "High", createdAt := "2025-07-11", completedAt := none,
    deletedAt := none }

/-- A second sample well-formed task with a different identifier. -/
def tB : Task :=
  { id := "b", text := "beta", completed := true, subject := "Physics",
    priority := "Low", createdAt := "2025-07-12", completedAt := some "2025-07-13",
    deletedAt := none }

/-- C2 fails as stated: mergeTasks deduplicates only against the current
state, not within its own payload, so merging a payload that repeats a
fresh identifier into the empty state (whose identifiers are trivially
pairwise distinct) yields two tasks with the same identifier. -/
theorem mergeTasks_can_break_id_uniqueness :
    (([] : List Task).map Task.id).Nodup ∧
    ¬ ((mergeTasks [] [RawTask.ok tA, RawTask.ok tA]).map Task.id).Nodup := by
  constructor
  · simp
  · decide

/-- editTask never changes the sequence of identifiers. -/
theorem editTask_map_id (p : EditPayload) :
    ∀ tasks : List Task, (editTask p tasks).map Task.id = tasks.map Task.id := by
  intro tasks
  induction tasks with
  | nil => rfl
  | cons t ts ih =>
    by_cases hc : t.id = p.id
    · simp [editTask, hc]
    · simp [editTask, hc, ih]

/-- toggleTask never changes the sequence of identifiers. -/
theorem toggleTask_map_id (i now : String) :
    ∀ tasks : List Task,
      (toggleTask i now tasks).map Task.id = tasks.map Task.id := by
  intro tasks
  induction tasks with
  | nil => rfl
  | cons t ts ih =>
    by_cases hc : t.id = i
    · simp [toggleTask, hc]
    · simp [toggleTask, hc, ih]

/-- C2 (amended): from a state with pairwise-distinct identifiers, every
task-store operation keeps them pairwise distinct, except that
mergeTasks additionally needs the identifiers of its own valid payload
entries to be pairwise distinct, since it never deduplicates the payload
against itself. -/
theorem taskOps_preserve_id_uniqueness (tasks : List Task)
    (h : (tasks.map Task.id).Nodup) :
    (∀ i txt subj prio ca, i ∉ tasks.map Task.id →
        ((addTask tasks i txt subj prio ca).map Task.id).Nodup) ∧
    (∀ p, ((editTask p tasks).map Task.id).Nodup) ∧
    (∀ i now, ((toggleTask i now tasks).map Task.id).Nodup) ∧
    (∀ i, ((deleteTask i tasks).map Task.id).Nodup) ∧
    (∀ payload : List RawTask,
        ((payload.filterMap RawTask.toTask).map Task.id).Nodup →
        ((mergeTasks tasks payload).map Task.id).Nodup) ∧
    ((clearTasks tasks).map Task.id).Nodup := by
  refine ⟨?_, ?_, ?_, ?_, ?_, by simp [clearTasks]⟩
  · intro i txt subj prio ca hfresh
    simp only [addTask, List.map_append, List.map_cons, List.map_nil,
      List.nodup_append]
    refine ⟨h, List.nodup_singleton i, ?_⟩
    intro a ha hai
    rw [List.mem_singleton] at hai
    exact hfresh (hai ▸ ha)
  · intro p
    rw [editTask_map_id]
    exact h
  · intro i now
    rw [toggleTask_map_id]
    exact h
  · intro i
    exact h.sublist ((List.filter_sublist tasks).map Task.id)
  · intro payload hpay
    simp only [mergeTasks, List.map_append, List.nodup_append]
    refine ⟨h, hpay.sublist ((List.filter_sublist _).map Task.id), ?_⟩
    intro a ha hb
    rw [List.mem_map] at hb
    obtain ⟨t, ht, rfl⟩ := hb
    rw [List.mem_filter] at ht
    have hcon : (tasks.map Task.id).contains t.id = false := by
      simpa using ht.2
    have htrue : (tasks.map Task.id).contains t.id = true :=
      List.elem_iff.mpr ha
    rw [hcon] at htrue
    exact Bool.false_ne_true htrue

/-- Witness for the amended C2 at a one-task state: adding a task with a
fresh identifier and merging a payload with one fresh valid entry both
keep the identifiers pairwise distinct. -/
theorem taskOps_preserve_id_uniqueness_witness :
    ((addTask [tA] "b" "beta" "Physics" "Low" "2025-07-12").map
        Task.id).Nodup ∧
    ((mergeTasks [tA] [RawTask.ok tB]).map Task.id).Nodup := by
  have h := taskOps_preserve_id_uniqueness [tA] (by decide)
  exact ⟨h.1 "b" "beta" "Physics" "Low" "2025-07-12" (by decide),
         h.2.2.2.2.1 [RawTask.ok tB] (by decide)⟩

/-- editTask leaves a list with no matching identifier untouched. -/
theorem editTask_no_match (p : EditPayload) :
    ∀ tasks : List Task, (∀ t ∈ tasks, t.id ≠ p.id) →
      editTask p tasks = tasks := by
  intro tasks
  induction tasks with
  | nil => intro _; rfl
  | cons t ts ih =>
    intro hall
    have ht : t.id ≠ p.id := hall t (List.mem_cons_self t ts)
    simp [editTask, ht, ih (fun u hu => hall u (List.mem_cons_of_mem t hu))]

/-- editTask rewrites exactly the first matching task, keeping the rest
of the list literally unchanged. -/
theorem editTask_first_match (p : EditPayload) :
    ∀ pre (t : Task) post, (∀ u ∈ pre, u.id ≠ p.id) → t.id = p.id →
      editTask p (pre ++ t :: post) =
        pre ++ { t with text := p.text, priority := p.priority,
                        subject := p.subject } :: post := by
  intro pre
  induction pre with
  | nil =>
    intro t post _ hid
    simp [editTask, hid]
  | cons u us ih =>
    intro t post hpre hid
    have hu : u.id ≠ p.id := hpre u (List.mem_cons_self u us)
    simp only [List.cons_append, editTask]
    rw [if_neg hu]
    exact congrArg (u :: .)
      (ih t post (fun v hv => hpre v (List.mem_cons_of_mem u hv)) hid)

/-- C9: editTask is a frame-preserving update: with no matching
identifier the state is untouched; splitting the list at the first match
shows the earlier tasks and the later tasks literally unchanged and only
text, priority and subject of the matched task overwritten, the record
update keeping its id, completed, createdAt, completedAt and deletedAt
fields as they were. -/
theorem editTask_frame (p : EditPayload) (tasks : List Task) :
    ((∀ t ∈ tasks, t.id ≠ p.id) → editTask p tasks = tasks) ∧
    (∀ pre t post,
        tasks = pre ++ t :: post → (∀ u ∈ pre, u.id ≠ p.id) → t.id = p.id →
        editTask p tasks =
          pre ++ { t with text := p.text, priority := p.priority,
                          subject := p.subject } :: post) ∧
    (∀ t : Task,
        ({ t with text := p.text, priority := p.priority,
                  subject := p.subject } : Task).id = t.id ∧
        ({ t with text := p.text, priority := p.priority,
                  subject := p.subject } : Task).completed = t.completed ∧
        ({ t with text := p.text, priority := p.priority,
                  subject := p.subject } : Task).createdAt = t.createdAt ∧
        ({ t with text := p.text, priority := p.priority,
                  subject := p.subject } : Task).completedAt = t.completedAt ∧
        ({ t with text := p.text, priority := p.priority,
                  subject := p.subject } : Task).deletedAt = t.deletedAt) :=
  ⟨editTask_no_match p tasks,
   fun pre t post hsplit hpre hid =>
     hsplit ▸ editTask_first_match p pre t post hpre hid,
   fun _ => ⟨rfl, rfl, rfl, rfl, rfl⟩⟩

/-- A sample app state holding one task and the default settings. -/
def demoState : AppState := { tasks := [tA], settings := defaultState }

/-- A settings object providing nothing. -/
def emptyPartial : PartialSettings :=
  { themeMode := none, subjects := none, notificationTime := none }

/-- C4: the import flow is atomic on error: for malformed JSON, a
non-array top-level tasks field or a non-object top-level settings
field, the user sees the error modal and neither the task state nor the
settings state changes. -/
theorem handleImport_atomic_on_error (st : AppState) (file : BackupContent)
    (h : (∃ m, file = .malformed m) ∨ (∃ s, file = .parsed none s) ∨
        (∃ ts, file = .parsed (some ts) none)) :
    (∃ msg, (handleImport st file).1 = ImportResult.errorAlert msg) ∧
    (handleImport st file).2 = st := by
  rcases h with ⟨m, rfl⟩ | ⟨s, rfl⟩ | ⟨ts, rfl⟩
  · exact ⟨⟨m, rfl⟩, rfl⟩
  · exact ⟨⟨_, rfl⟩, rfl⟩
  · exact ⟨⟨_, rfl⟩, rfl⟩

/-- Witness for C4: importing a file JSON.parse rejects reports the
error and leaves the sample state untouched. -/
theorem handleImport_atomic_on_error_witness :
    (∃ msg, (handleImport demoState (.malformed "Unexpected token")).1 =
        ImportResult.errorAlert msg) ∧
    (handleImport demoState (.malformed "Unexpected token")).2 = demoState :=
  handleImport_atomic_on_error demoState (.malformed "Unexpected token")
    (.inl ⟨"Unexpected token", rfl⟩)

/-- When every valid backup task carries an identifier already present,
the new-task filter of the import flow keeps nothing. -/
theorem filter_new_eq_nil (st : AppState) (raw : List RawTask)
    (h : ∀ t ∈ raw.filterMap RawTask.toTask, t.id ∈ st.tasks.map Task.id) :
    (raw.filterMap RawTask.toTask).filter
        (fun t => !((st.tasks.map Task.id).contains t.id)) = [] := by
  rw [List.filter_eq_nil_iff]
  intro t ht
  have hmem := h t ht
  rw [List.mem_map] at hmem
  obtain ⟨x, hx, hxid⟩ := hmem
  simp
  exact ⟨x, hx, hxid⟩

/-- With no new tasks, the import flow answers the warning and returns
the state untouched. -/
theorem handleImport_no_new (st : AppState) (raw : List RawTask)
    (s : PartialSettings)
    (hnil : (raw.filterMap RawTask.toTask).filter
        (fun t => !((st.tasks.map Task.id).contains t.id)) = []) :
    handleImport st (.parsed (some raw) (some s)) =
      (ImportResult.nothingToImport, st) := by
  show (if ((raw.filterMap RawTask.toTask).filter
      (fun t => !((st.tasks.map Task.id).contains t.id))).length = 0 then
      ((ImportResult.nothingToImport, st) : ImportResult × AppState)
    else
      (ImportResult.successAlert ((raw.filterMap RawTask.toTask).filter
          (fun t => !((st.tasks.map Task.id).contains t.id))).length,
       { tasks := mergeTasks st.tasks
           ((raw.filterMap RawTask.toTask).map RawTask.ok)
         settings := mergeSettings st.settings s })) =
    (ImportResult.nothingToImport, st)
  rw [hnil]
  simp

/-- C8: a well-formed backup whose valid tasks all carry identifiers
already present adds nothing: the flow answers with the Nothing to
Import warning, the task collection is unchanged, and that warning is a
different outcome from every success report. -/
theorem handleImport_nothing_to_import (st : AppState) (raw : List RawTask)
    (s : PartialSettings)
    (h : ∀ t ∈ raw.filterMap RawTask.toTask, t.id ∈ st.tasks.map Task.id) :
    (handleImport st (.parsed (some raw) (some s))).1 =
        ImportResult.nothingToImport ∧
    (handleImport st (.parsed (some raw) (some s))).2.tasks = st.tasks ∧
    (∀ n, ImportResult.nothingToImport ≠ ImportResult.successAlert n) := by
  rw [handleImport_no_new st raw s (filter_new_eq_nil st raw h)]
  exact ⟨rfl, rfl, fun n hn => by cases hn⟩

/-- Witness for C8: importing a backup holding only the already-present
sample task warns and keeps the one-task collection. -/
theorem handleImport_nothing_to_import_witness :
    (handleImport demoState
        (.parsed (some [RawTask.ok tA]) (some emptyPartial))).1 =
      ImportResult.nothingToImport ∧
    (handleImport demoState
        (.parsed (some [RawTask.ok tA]) (some emptyPartial))).2.tasks =
      demoState.tasks ∧
    (∀ n, ImportResult.nothingToImport ≠ ImportResult.successAlert n) :=
  handleImport_nothing_to_import demoState [RawTask.ok tA] emptyPartial
    (by decide)

/-- C10: when a well-formed backup yields zero new tasks, the early
return happens before any dispatch, so the backup settings are discarded
and the settings state is untouched. -/
theorem handleImport_nothing_discards_settings (st : AppState)
    (raw : List RawTask) (s : PartialSettings)
    (h : ∀ t ∈ raw.filterMap RawTask.toTask, t.id ∈ st.tasks.map Task.id) :
    (handleImport st (.parsed (some raw) (some s))).2.settings =
      st.settings := by
  rw [handleImport_no_new st raw s (filter_new_eq_nil st raw h)]

/-- Witness for C10: a duplicate-only backup carrying a dark theme and
an extra subject leaves the default settings exactly as they were. -/
theorem handleImport_nothing_discards_settings_witness :
    (handleImport demoState
        (.parsed (some [RawTask.junk, RawTask.ok tA])
          (some { themeMode := some .dark, subjects := some ["Biology"],
                  notificationTime := some (some "08:00") }))).2.settings =
      demoState.settings :=
  handleImport_nothing_discards_settings demoState
    [RawTask.junk, RawTask.ok tA]
    { themeMode := some .dark, subjects := some ["Biology"],
      notificationTime := some (some "08:00") }
    (by decide)

end BrainDesk
